import Mathlib

/-
Verification development for the graphqlex GraphQL client
(source of authority: src/src/graphqlex.ts).

The development shallowly embeds:
  * the JSON value type and serialization used for request bodies and
    socket frames (JSON.stringify of plain data);
  * Api.run's request construction (standardOptions spread plus header
    merge) and its error policy (the onError wrapper set by the Api
    constructor, and run's two try/catch blocks);
  * the Api constructor's URL handling (the /^(https?):\/\// match and
    the websocket-URL derivation via url.split("//").slice(1) joined
    back with "//", which stringifies the nested array with commas);
  * the Socket class as a state machine: the subscriptions map, the
    connected flag, the connectedHandlers queue of deferred start-sends,
    and the webSocket.onmessage dispatch, with an explicit transcript of
    frames written to the underlying webSocket;
  * the Subscription handle returned by Api.subscribe, including the
    `this`-binding of its close method;
  * trimInput over a dynamic value type.
-/

/-- Dynamic JSON-like values, used for GraphQL variables objects and
message payloads. -/
inductive Json where
  | null
  | bool (b : Bool)
  | num (n : Int)
  | str (s : String)
  | arr (items : List Json)
  | obj (fields : List (String × Json))

/-- Escape of a single character inside a JSON string literal, as
JSON.stringify does for the common cases. -/
def escapeJsonChar (c : Char) : String :=
  if c = '"' then "\\\""
  else if c = '\\' then "\\\\"
  else if c = '\n' then "\\n"
  else if c = '\t' then "\\t"
  else if c = '\r' then "\\r"
  else String.singleton c

/-- Escape of a whole JSON string literal body. -/
def escapeJson (s : String) : String :=
  s.data.foldl (fun acc c => acc ++ escapeJsonChar c) ""

mutual

/-- Model of JSON.stringify on plain data (no spacing, insertion-ordered
object keys), as the source uses it for request bodies and socket frames. -/
def Json.stringify : Json → String
  | .null => "null"
  | .bool true => "true"
  | .bool false => "false"
  | .num n => toString n
  | .str s => "\"" ++ escapeJson s ++ "\""
  | .arr items => "[" ++ stringifyItems items ++ "]"
  | .obj fields => "\x7b" ++ stringifyFields fields ++ "\x7d"

/-- Comma-separated serialization of a JSON array's items. -/
def stringifyItems : List Json → String
  | [] => ""
  | [x] => Json.stringify x
  | x :: rest => Json.stringify x ++ "," ++ stringifyItems rest

/-- Comma-separated serialization of a JSON object's fields. -/
def stringifyFields : List (String × Json) → String
  | [] => ""
  | [(k, v)] => "\"" ++ escapeJson k ++ "\":" ++ Json.stringify v
  | (k, v) :: rest =>
      "\"" ++ escapeJson k ++ "\":" ++ Json.stringify v ++ "," ++ stringifyFields rest

end

/-- The `standardOptions.headers` object from the top of graphqlex.ts. -/
def standardHeaders : List (String × String) :=
  [("Content-type", "application/json"), ("Accept", "application/json")]

/-- Lookup in a JS object modelled as an insertion list of key/value
pairs where a later entry for the same key overrides an earlier one,
which is the value semantics of spreading one object after another. -/
def jsObjGet : List (String × String) → String → Option String
  | [], _ => none
  | (k, v) :: rest, key =>
      match jsObjGet rest key with
      | some w => some w
      | none => if k = key then some v else none

/-- A fetch init record as built by Api.run:
`{...standardOptions, headers, body: JSON.stringify({query, variables})}`
where `headers = {...standardOptions.headers, ...this.headers}`. -/
structure FetchInit where
  method : String
  headers : List (String × String)
  body : String

/-- Embedding of the request object Api.run passes to fetch. -/
def runRequest (apiHeaders : List (String × String)) (query : String)
    (vars : Json) : FetchInit :=
  { method := "POST"
  , headers := standardHeaders ++ apiHeaders
  , body := Json.stringify (Json.obj
      [("query", Json.str query), ("variables", vars)]) }

/-- Dynamic values that can reach the Api's internal onError wrapper:
a JS string, an Error instance (with its message), or a plain object
such as an entry of a GraphQL `errors` array (with an optional
`message` property). -/
inductive ErrVal where
  | str (s : String)
  | errorObj (m : String)
  | plainObj (m : Option String)
deriving DecidableEq

/-- Fallback message hard-coded in the Api constructor's onError wrapper. -/
def defaultErrMsg : String :=
  "GraphQL error. Try: Check network connection / Turn off ad blockers"

/-- The message derivation in the onError wrapper:
`typeof err === "string" ? err : (err?.message) || defaultMsg`
(an empty message string is falsy and falls back to the default). -/
def msgOf : ErrVal → String
  | .str s => s
  | .errorObj m => if m = "" then defaultErrMsg else m
  | .plainObj (some m) => if m = "" then defaultErrMsg else m
  | .plainObj none => defaultErrMsg

/-- One invocation of a caller-supplied error handler: the derived
human-readable message and the second argument actually passed, which is
the single value the wrapper itself received (the wrapper's arrow
function declares one parameter, so any second argument at its call
sites is dropped). -/
structure ErrCall where
  msg : String
  detail : ErrVal
deriving DecidableEq

/-- Embedding of the onError wrapper installed by the Api constructor.
It returns the handler invocations it performs and the message of the
Error it throws: the wrapper always throws, rethrowing `err` itself when
it is already an Error instance and `new Error(msg)` otherwise. -/
def wrapOnError (hasHandler : Bool) (err : ErrVal) : List ErrCall × String :=
  let msg := msgOf err
  ( if hasHandler then [⟨msg, err⟩] else []
  , match err with
    | .errorObj m => m
    | _ => msg )

/-- The parsed JSON body of a GraphQL response as destructured by run:
`errors` is `some list` when the field is an array (else `none`), and
`data` is an opaque optional value. -/
structure RespBody where
  errors : Option (List ErrVal)
  data : Option String

/-- Outcome of the fetch call made by run: either the promise rejects
with some value, or it resolves to a response with a raw body text and
an optional parsed JSON structure (`none` when `.json()` rejects). -/
inductive FetchOutcome where
  | reject (err : ErrVal)
  | resolve (bodyText : String) (parsed : Option RespBody)

/-- The observable result of one Api.run call: the handler invocations
made through the onError wrapper, in order, and either the thrown
error's message or the returned data. -/
structure RunResult where
  handlerCalls : List ErrCall
  result : Except String (Option String)

/-- Embedding of Api.run's control flow.  The constructor always
installs the onError wrapper, so `typeof this.onError === "function"`
is true on every path and the `else throw` branches are dead.  On fetch
rejection the wrapper is called with the string "GraphQL Network Error"
and its throw propagates out of the first catch.  Inside the second try,
a non-empty errors array makes the wrapper throw; that throw is caught
by the same try's catch, which re-reads the body text and calls the
wrapper again with "Invalid GraphQL response\n" followed by the raw
body, whose throw is what the caller finally observes. -/
def runModel (hasHandler : Bool) (f : FetchOutcome) : RunResult :=
  match f with
  | .reject _ =>
      let r := wrapOnError hasHandler (.str "GraphQL Network Error")
      ⟨r.1, .error r.2⟩
  | .resolve body parsed =>
      match parsed with
      | none =>
          let r := wrapOnError hasHandler
            (.str ("Invalid GraphQL response\n" ++ body))
          ⟨r.1, .error r.2⟩
      | some rb =>
          match rb.errors with
          | some (e0 :: _) =>
              let r1 := wrapOnError hasHandler e0
              let r2 := wrapOnError hasHandler
                (.str ("Invalid GraphQL response\n" ++ body))
              ⟨r1.1 ++ r2.1, .error r2.2⟩
          | _ => ⟨[], .ok rb.data⟩

/-- Decides whether a fetch outcome makes an error arise in run: the
network call failed, the body was not parseable JSON, or the parsed
body carried a non-empty errors array. -/
def errorArising : FetchOutcome → Bool
  | .reject _ => true
  | .resolve _ none => true
  | .resolve _ (some rb) =>
      match rb.errors with
      | some (_ :: _) => true
      | _ => false

/-- Prefix test on character lists, embedding the anchored part of the
constructor's regular-expression match against the URL. -/
def beginsWith : List Char → List Char → Bool
  | _, [] => true
  | [], _ :: _ => false
  | c :: cs, p :: ps => c = p && beginsWith cs ps

/-- Embedding of `url.match(/^(https?):\/\//)`: the captured group, or
`none` when the match fails (in which case indexing the null match
result with [1] throws a TypeError in the source). -/
def matchHttpProtocol (url : String) : Option String :=
  if beginsWith url.data "https://".data then some "https"
  else if beginsWith url.data "http://".data then some "http"
  else none

/-- Embedding of JS `str.split("//")` specialised to the two-slash
separator used by the constructor. -/
def splitSlashes : List Char → List (List Char)
  | [] => [[]]
  | [c] => [[c]]
  | c1 :: c2 :: rest =>
      if c1 = '/' ∧ c2 = '/' then [] :: splitSlashes rest
      else
        match splitSlashes (c2 :: rest) with
        | [] => [[c1]]
        | seg :: segs => (c1 :: seg) :: segs

/-- Whether a character list contains two consecutive slashes. -/
def hasDoubleSlash : List Char → Bool
  | [] => false
  | [_] => false
  | c1 :: c2 :: rest => (c1 = '/' && c2 = '/') || hasDoubleSlash (c2 :: rest)

/-- Embedding of the truthiness of `protocol.match(/s$/)`: whether the
string ends in the character 's'. -/
def endsInS (s : String) : Bool :=
  match s.data.getLast? with
  | some c => c = 's'
  | none => false

/-- Embedding of Array.prototype.join(",") over strings, which is how a
nested array stringifies inside an outer join. -/
def joinComma : List String → String
  | [] => ""
  | [x] => x
  | x :: rest => x ++ "," ++ joinComma rest

/-- Embedding of the derived websocket URL
`[`ws${isSecure ? "s" : ""}:`, url.split("//").slice(1)].join("//")`:
Array.prototype.join stringifies the nested array produced by slice,
which joins its own elements with ",". -/
def deriveWsUrl (isSecure : Bool) (url : String) : String :=
  "ws" ++ (if isSecure then "s" else "") ++ ":" ++ "//" ++
    joinComma (((splitSlashes url.data).drop 1).map String.mk)

/-- Possible outcomes of running the Api constructor: a constructed
instance carrying its url and wsUrl, or one of its three throw sites
(the explicit no-fetch throw, the TypeError from indexing a null regex
match, and the explicit `Unexpected API URL` throw). -/
inductive CtorResult where
  | ok (url : String) (wsUrl : String)
  | noFetchError
  | typeError
  | unexpectedUrlError
deriving DecidableEq

/-- Embedding of the Api constructor's URL handling.  `hasFetch` is
true when `options.fetch` is provided or a browser `window` exists;
otherwise the constructor throws before touching the URL.  When the
regex does not match, `url.match(...)` is null and reading `[1]` throws
a TypeError.  A successful match binds the captured group, which is
always the non-empty string "http" or "https", so the subsequent
`if (!protocol)` guard can never fire. -/
def apiConstructor (hasFetch : Bool) (url : String) (wsUrlOpt : Option String) :
    CtorResult :=
  if hasFetch = false then .noFetchError
  else
    match matchHttpProtocol url with
    | none => .typeError
    | some protocol =>
        if protocol = "" then .unexpectedUrlError
        else
          let isSecure := endsInS protocol
          .ok url (wsUrlOpt.getD (deriveWsUrl isSecure url))

/-- The wsUrl stored on a successfully constructed Api, if any. -/
def ctorWsUrl : CtorResult → Option String
  | .ok _ wsUrl => some wsUrl
  | _ => none

/-- A channel-start message as built at the top of Api.subscribe:
`{id: channelName, type: "start", payload: {query, variables}}`. -/
structure StartMsg where
  id : String
  query : String
  vars : Json

/-- Frames written to the underlying webSocket, in order: the
connection_init frame sent by the onopen handler, and start frames sent
by the startSub closures. -/
inductive Wire where
  | connectionInit (headers : List (String × String))
  | start (m : StartMsg)

/-- State of the Socket class: the handshake flag, the queue of
deferred startSub closures (each identified by the start message it
closes over), the subscriptions map (channel id to whether a
dataHandler function has been attached), and the transcript of frames
sent on the webSocket. -/
structure SocketState where
  connected : Bool
  connectedHandlers : List StartMsg
  subscriptions : List (String × Bool)
  sent : List Wire

/-- Lookup in the subscriptions map (JS property access on the object). -/
def lookupSub : List (String × Bool) → String → Option Bool
  | [], _ => none
  | (k, v) :: rest, ch => if k = ch then some v else lookupSub rest ch

/-- Truthiness of `this.socket.subscriptions[channelName]`: a
registration object `{}` is truthy, an absent property is undefined and
falsy. -/
def hasSub (subs : List (String × Bool)) (ch : String) : Bool :=
  (lookupSub subs ch).isSome

/-- JS property assignment `subscriptions[ch] = {}`: replace the entry
when the key is present, append it otherwise. -/
def setSub (subs : List (String × Bool)) (ch : String) : List (String × Bool) :=
  if hasSub subs ch then
    subs.map (fun p => if p.1 = ch then (ch, false) else p)
  else subs ++ [(ch, false)]

/-- Embedding of Api.subscribe acting on the Api's optional socket
(`none` before the first call).  A duplicate open channel id throws
before any mutation.  On an existing non-connected socket the startSub
closure is pushed onto connectedHandlers; on a connected socket it runs
immediately, writing the start frame; on the first call a fresh Socket
is constructed with startSub as its onConnected argument, so its
connectedHandlers queue starts as that one-element list.  In every
non-throwing case the registration object is then stored in the
subscriptions map. -/
def subscribeStep (st : Option SocketState) (q : String) (v : Json)
    (ch : String) : Except String (Option SocketState) :=
  let msg : StartMsg := ⟨ch, q, v⟩
  match st with
  | some sk =>
      if hasSub sk.subscriptions ch then
        .error ("Subscription already exists for channel [" ++ ch ++ "]")
      else
        let sk2 :=
          if sk.connected then
            { sk with sent := sk.sent ++ [Wire.start msg] }
          else
            { sk with connectedHandlers := sk.connectedHandlers ++ [msg] }
        .ok (some { sk2 with subscriptions := setSub sk2.subscriptions ch })
  | none =>
      let sk : SocketState :=
        { connected := false, connectedHandlers := [msg]
        , subscriptions := [], sent := [] }
      .ok (some { sk with subscriptions := setSub sk.subscriptions ch })

/-- Inbound socket messages after JSON.parse, classified by their type
discriminator exactly as webSocket.onmessage does.  `failure true` is a
subscription_fail frame and `failure false` an error frame; `unknown`
covers every type outside the handled set. -/
inductive InMsg where
  | failure (isSubFail : Bool) (id : String) (payloadMessage : Option String)
  | dataMsg (id : String) (payload : Json)
  | ka
  | connectionAck (id : String)
  | initFail (id : String)
  | subscriptionSuccess (id : String)
  | unknown (typeName : String) (id : String)

/-- Observable outcome of one webSocket.onmessage invocation: the
updated socket state, an exception thrown out of the handler (if any),
the string handed to the log sink (if any; the sink receives it only
when a log function has been set), and a data-handler invocation
(channel id and payload data), if any. -/
structure InOutcome where
  socket : SocketState
  thrown : Option String
  logMsg : Option String
  handlerRun : Option (String × Json)

/-- JS `x || ""` over an optional message string: an absent or empty
message is falsy. -/
def falsyOr (o : Option String) (d : String) : String :=
  match o with
  | some s => if s = "" then d else s
  | none => d

/-- Embedding of the webSocket.onmessage handler of the Socket class.
The Socket is always constructed by Api.subscribe with the first
channel's startSub closure as onConnected, so the
`typeof onConnected === "function"` guard on the connection_ack branch
is true.  Flushing the queue appends each handler's start frame in
queue order and does not clear the queue. -/
def onMessage (sk : SocketState) (m : InMsg) : InOutcome :=
  match m with
  | .failure isSubFail id pm =>
      ⟨sk
      , some ("GraphQL " ++ (if isSubFail then "subscription_fail" else "error")
          ++ " for channel " ++ id ++ " " ++ falsyOr pm "")
      , none, none⟩
  | .dataMsg id payload =>
      match lookupSub sk.subscriptions id with
      | some true => ⟨sk, none, none, some (id, payload)⟩
      | _ =>
          ⟨sk, none
          , some ("graphqlx: data received for channel [" ++ id
              ++ "] with no subscription handler")
          , none⟩
  | .ka => ⟨sk, none, none, none⟩
  | .connectionAck id =>
      ⟨{ sk with
          connected := true
          sent := sk.sent ++ sk.connectedHandlers.map Wire.start }
      , none
      , some ("graphqlx: [" ++ id ++ "] connection_ack, the handshake is complete")
      , none⟩
  | .initFail id =>
      ⟨sk, none
      , some ("graphqlx: [" ++ id ++ "] init_fail returned from the WebSocket server")
      , none⟩
  | .subscriptionSuccess id =>
      ⟨sk, none, some ("graphqlx: [" ++ id ++ "] subscription_success"), none⟩
  | .unknown t _ =>
      ⟨sk, none
      , some ("graphqlx: unexpected message type [" ++ t
          ++ "] received from WebSocket server")
      , none⟩

/-- Embedding of the webSocket.onopen handler: send the connection_init
frame carrying the configured headers. -/
def onOpen (headers : List (String × String)) (sk : SocketState) : SocketState :=
  { sk with sent := sk.sent ++ [Wire.connectionInit headers] }

/-- A sequence of subscribe calls applied to the Api's socket field.
Each element is (query, variables, channelName).  A call that throws
the duplicate-channel error leaves the state unchanged and the caller
may continue with further calls. -/
def runSubs : Option SocketState → List (String × Json × String) → Option SocketState
  | st, [] => st
  | st, (q, v, ch) :: rest =>
      match subscribeStep st q v ch with
      | .ok st2 => runSubs st2 rest
      | .error _ => runSubs st rest

/-- The start messages of the subscribe calls that are accepted (their
channel id not already registered), in call order; `seen` holds the ids
already registered. -/
def acceptedMsgs : List String → List (String × Json × String) → List StartMsg
  | _, [] => []
  | seen, (q, v, ch) :: rest =>
      if ch ∈ seen then acceptedMsgs seen rest
      else ⟨ch, q, v⟩ :: acceptedMsgs (ch :: seen) rest

/-- The Subscription handle Api.subscribe returns: an object literal
with onData and close methods, closing over the channel name. -/
structure SubscriptionHandle where
  channelName : String

/-- Embedding of Subscription.close, which executes
`delete this.socket.subscriptions[channelName]`.  The method is
shorthand syntax on the handle object literal, so at a call
`handle.close()` the receiver `this` is the handle itself, which has no
socket property: `this.socket` is undefined, and reading
`.subscriptions` on it throws a TypeError before the delete can act.
The Api's socket state is therefore never modified. -/
def handleClose (_h : SubscriptionHandle) (_st : Option SocketState) :
    Except String (Option SocketState) :=
  .error "TypeError: Cannot read properties of undefined (reading subscriptions)"

/-- Dynamic JS values as seen by trimInput: undefined, an opaque
non-object scalar, an object, or an array. -/
inductive JVal where
  | undefinedVal
  | scalar (tag : Nat)
  | obj (fields : List (String × JVal))
  | arr (items : List JVal)

/-- Boolean test for the undefined value. -/
def JVal.isUndefinedVal : JVal → Bool
  | .undefinedVal => true
  | _ => false

/-- Field lookup inside an object value (first entry with the key). -/
def lookupField : List (String × JVal) → String → Option JVal
  | [], _ => none
  | (k, v) :: rest, key => if k = key then some v else lookupField rest key

/-- JS property access `value[name]`: a present object field's value,
undefined otherwise. -/
def getProp : JVal → String → JVal
  | .obj fields, k => (lookupField fields k).getD .undefinedVal
  | _, _ => .undefinedVal

/-- Metadata for one field of a GraphQL input type, as in graphqlex.ts. -/
structure InputFieldInfo where
  name : String
  typeName : String
  isList : Bool
  isNonNull : Bool

/-- Metadata for a GraphQL input type. -/
structure InputTypeInfo where
  name : String
  fields : List InputFieldInfo

/-- Lookup in an InputTypeInfoMap, modelled as a key/value list. -/
def lookupTypeInfo : List (String × InputTypeInfo) → String → Option InputTypeInfo
  | [], _ => none
  | (k, v) :: rest, key => if k = key then some v else lookupTypeInfo rest key

/-- A value retained by lookupField is a structural subterm. -/
theorem lookupField_sizeOf {fields : List (String × JVal)} {k : String} {v : JVal}
    (h : lookupField fields k = some v) : sizeOf v < sizeOf fields := by
  induction fields with
  | nil => simp [lookupField] at h
  | cons p rest ih =>
    obtain ⟨k0, v0⟩ := p
    simp only [lookupField] at h
    split at h
    · cases h
      simp
      omega
    · have := ih h
      simp
      omega

/-- A defined property value is structurally smaller than its object. -/
theorem getProp_sizeOf {p : JVal} {k : String}
    (h : ¬ (getProp p k).isUndefinedVal = true) : sizeOf (getProp p k) < sizeOf p := by
  cases p with
  | obj fields =>
    simp only [getProp] at h ⊢
    cases hl : lookupField fields k with
    | none => simp [hl, JVal.isUndefinedVal] at h
    | some v =>
      simp only [hl, Option.getD_some]
      have := lookupField_sizeOf hl
      simp
      omega
  | undefinedVal => simp [getProp, JVal.isUndefinedVal] at h
  | scalar t => simp [getProp, JVal.isUndefinedVal] at h
  | arr items => simp [getProp, JVal.isUndefinedVal] at h

/-- Embedding of trimInput from graphqlex.ts.  When the named type is
absent from the map the proposed input is returned as is.  Otherwise a
fresh object is built by walking the input type's fields: provided
(non-undefined) fields are kept, recursing into fields whose own type
is an input type (element-wise for list fields holding an array), and
copying any other field across unchanged. -/
def trimInput (m : List (String × InputTypeInfo)) (p : JVal)
    (typeName : String) : JVal :=
  match lookupTypeInfo m typeName with
  | none => p
  | some inputType =>
      JVal.obj <| inputType.fields.filterMap fun fi =>
        if hf : (getProp p fi.name).isUndefinedVal then none
        else some (fi.name,
          if (lookupTypeInfo m fi.typeName).isSome then
            match hm : getProp p fi.name, fi.isList with
            | .arr items, true =>
                JVal.arr (items.attach.map fun it => trimInput m it.1 fi.typeName)
            | _, _ => trimInput m (getProp p fi.name) fi.typeName
          else getProp p fi.name)
termination_by sizeOf p
decreasing_by
  · have h1 : sizeOf (getProp p fi.name) < sizeOf p := getProp_sizeOf hf
    rw [hm] at h1
    have h2 : sizeOf it.1 < sizeOf items := List.sizeOf_lt_of_mem it.2
    simp at h1
    omega
  · exact getProp_sizeOf hf

/-- Looking a key up after spreading one object list onto another gives
the later list's binding when present, else the earlier list's. -/
theorem jsObjGet_append (a b : List (String × String)) (k : String) :
    jsObjGet (a ++ b) k
      = match jsObjGet b k with
        | some w => some w
        | none => jsObjGet a k := by
  induction a with
  | nil =>
    simp only [List.nil_append, jsObjGet]
    cases jsObjGet b k <;> rfl
  | cons p rest ih =>
    obtain ⟨k0, v0⟩ := p
    simp only [List.cons_append, jsObjGet, List.append_eq]
    rw [ih]
    cases jsObjGet b k <;> cases jsObjGet rest k <;> rfl

/-- Claim C7: for every query string and variables object, run sends a
POST request whose body is exactly the JSON serialization of
`{query, variables}` and whose headers are the standard headers merged
with the Api's configured headers, the configured value winning on any
key collision. -/
theorem run_request_exact (apiHeaders : List (String × String)) (q : String)
    (v : Json) (k : String) :
    (runRequest apiHeaders q v).method = "POST"
      ∧ (runRequest apiHeaders q v).body
          = Json.stringify (Json.obj [("query", Json.str q), ("variables", v)])
      ∧ jsObjGet (runRequest apiHeaders q v).headers k
          = match jsObjGet apiHeaders k with
            | some w => some w
            | none => jsObjGet standardHeaders k := by
  refine ⟨rfl, rfl, ?_⟩
  exact jsObjGet_append standardHeaders apiHeaders k

/-- Claim C5: with the transport resolving to a response whose parsed
body is an errors array holding one entry with message "boom", and no
error handler configured, run raises an error whose message contains
"boom".  In the source the wrapper's first throw (message "boom") is
caught by the surrounding try's catch and re-wrapped as an
invalid-response error carrying the raw body text, which still contains
"boom". -/
theorem run_boom_raises :
    (runModel false (.resolve "\x7b\"errors\":[\x7b\"message\":\"boom\"\x7d]\x7d"
        (some ⟨some [.plainObj (some "boom")], none⟩))).result
      = .error
          "Invalid GraphQL response\n\x7b\"errors\":[\x7b\"message\":\"boom\"\x7d]\x7d"
      ∧ ∃ pre post,
          "Invalid GraphQL response\n\x7b\"errors\":[\x7b\"message\":\"boom\"\x7d]\x7d"
            = pre ++ "boom" ++ post := by
  refine ⟨rfl, "Invalid GraphQL response\n\x7b\"errors\":[\x7b\"message\":\"",
    "\"\x7d]\x7d", ?_⟩
  rfl

/-- Claim C4 counterexample: an inbound error frame for channel ch1
with server message "oops" makes the onmessage handler throw the
diagnostic as an Error; nothing is handed to the log sink, refuting the
claim that such diagnostics are surfaced via the logging channel rather
than raised. -/
theorem failure_frame_cex :
    (onMessage ⟨false, [], [], []⟩ (.failure false "ch1" (some "oops"))).thrown
        = some "GraphQL error for channel ch1 oops"
      ∧ (onMessage ⟨false, [], [], []⟩ (.failure false "ch1" (some "oops"))).thrown
          ≠ none
      ∧ (onMessage ⟨false, [], [], []⟩ (.failure false "ch1" (some "oops"))).logMsg
          = none := by
  refine ⟨rfl, ?_, rfl⟩
  decide

/-- Claim C4 (amended): for every inbound subscription_fail or error
frame, the handler builds a diagnostic containing the channel id and
any server-supplied message text and raises it as an Error out of the
message handler; nothing is passed to the logging sink and the socket
state is unchanged. -/
theorem failure_frames_raise (sk : SocketState) (isSubFail : Bool) (id : String)
    (pm : Option String) :
    (onMessage sk (.failure isSubFail id pm)).thrown
        = some ("GraphQL " ++ (if isSubFail then "subscription_fail" else "error")
            ++ " for channel " ++ id ++ " " ++ falsyOr pm "")
      ∧ (onMessage sk (.failure isSubFail id pm)).logMsg = none
      ∧ (onMessage sk (.failure isSubFail id pm)).socket = sk :=
  ⟨rfl, rfl, rfl⟩

/-- Claim C2 counterexample: subscribing once while connecting and then
receiving connection_ack twice writes the queued start frame to the
socket twice, so the queued start-message is not flushed exactly once
over the Connection's lifetime. -/
theorem ack_twice_cex :
    (match runSubs none [("q", Json.null, "ch1")] with
      | some sk =>
          (onMessage (onMessage sk (.connectionAck "x")).socket
            (.connectionAck "x")).socket.sent
      | none => [])
      = [Wire.start ⟨"ch1", "q", Json.null⟩, Wire.start ⟨"ch1", "q", Json.null⟩]
      ∧ ([Wire.start ⟨"ch1", "q", Json.null⟩, Wire.start ⟨"ch1", "q", Json.null⟩]
          : List Wire) ≠ [Wire.start ⟨"ch1", "q", Json.null⟩] := by
  refine ⟨rfl, ?_⟩
  intro h
  simpa using congrArg List.length h

/-- Claim C2 (amended): receiving connection_ack always sets the
connected flag, appends every queued handler's start frame to the
transcript in queue order, and leaves the queue in place uncleared - so
a second connection_ack after the handshake is established executes the
deferred-action queue again and re-sends each queued start-message. -/
theorem ack_reflushes (sk : SocketState) (id : String) :
    (onMessage sk (.connectionAck id)).socket.connected = true
      ∧ (onMessage sk (.connectionAck id)).socket.sent
          = sk.sent ++ sk.connectedHandlers.map Wire.start
      ∧ (onMessage sk (.connectionAck id)).socket.connectedHandlers
          = sk.connectedHandlers :=
  ⟨rfl, rfl, rfl⟩

/-- Claim C3 (code bug evidence): subscribing on channel ch1 succeeds;
calling close on the returned handle throws a TypeError (the method's
`this` is the handle object, which has no socket property) and leaves
the registration in place; a subsequent subscribe with the same id
still fails with the duplicate-channel error. -/
theorem close_typeerror_cex :
    subscribeStep none "q" Json.null "ch1"
        = .ok (some ⟨false, [⟨"ch1", "q", Json.null⟩], [("ch1", false)], []⟩)
      ∧ handleClose ⟨"ch1"⟩
            (some ⟨false, [⟨"ch1", "q", Json.null⟩], [("ch1", false)], []⟩)
          = .error "TypeError: Cannot read properties of undefined (reading subscriptions)"
      ∧ subscribeStep
            (some ⟨false, [⟨"ch1", "q", Json.null⟩], [("ch1", false)], []⟩)
            "q" Json.null "ch1"
          = .error "Subscription already exists for channel [ch1]" :=
  ⟨rfl, rfl, rfl⟩

/-- Claim C6 counterexample: with a handler configured and the fetch
call rejecting with an Error whose message is "connect ECONNREFUSED",
no handler invocation receives that underlying error object - the
wrapper's single parameter binds the message string and the second
argument at the call site is dropped - refuting the claim that the
handler is invoked with the underlying error object. -/
theorem handler_detail_cex :
    ¬ ∃ c ∈ (runModel true (.reject (.errorObj "connect ECONNREFUSED"))).handlerCalls,
        c.detail = ErrVal.errorObj "connect ECONNREFUSED" := by
  decide

/-- Claim C6 (amended): for every error arising in run (network
failure, invalid response, or non-empty errors list) the call raises an
error whether or not a handler is configured; the handler is invoked
exactly when one is configured, with a human-readable message, but its
detail argument is the value the internal onError wrapper received - in
particular, on a network failure the handler receives the literal
string "GraphQL Network Error" as both message and detail, not the
underlying exception. -/
theorem run_error_policy (hasHandler : Bool) (f : FetchOutcome)
    (h : errorArising f = true) :
    (∃ m, (runModel hasHandler f).result = Except.error m)
      ∧ ((runModel hasHandler f).handlerCalls = [] ↔ hasHandler = false)
      ∧ (∀ e, f = FetchOutcome.reject e →
          (runModel hasHandler f).handlerCalls
            = if hasHandler then
                [⟨"GraphQL Network Error", ErrVal.str "GraphQL Network Error"⟩]
              else []) := by
  cases f with
  | reject e =>
    refine ⟨⟨_, rfl⟩, ?_, ?_⟩
    · cases hasHandler <;> simp [runModel, wrapOnError, msgOf]
    · intro e2 _
      cases hasHandler <;> simp [runModel, wrapOnError, msgOf]
  | resolve body parsed =>
    cases parsed with
    | none =>
      refine ⟨⟨_, rfl⟩, ?_, ?_⟩
      · cases hasHandler <;> simp [runModel, wrapOnError, msgOf]
      · intro e2 he
        cases he
    | some rb =>
      obtain ⟨errs, dat⟩ := rb
      cases errs with
      | none => simp [errorArising] at h
      | some es =>
        cases es with
        | nil => simp [errorArising] at h
        | cons e0 erest =>
          refine ⟨⟨_, rfl⟩, ?_, ?_⟩
          · cases hasHandler <;> simp [runModel, wrapOnError, msgOf]
          · intro e2 he
            cases he

/-- Claim C6 witness: the amended policy at a concrete network
failure with a handler configured. -/
theorem run_error_policy_witness :
    (∃ m, (runModel true (.reject (.str "netfail"))).result = Except.error m)
      ∧ ((runModel true (.reject (.str "netfail"))).handlerCalls = [] ↔ true = false)
      ∧ (∀ e, FetchOutcome.reject (.str "netfail") = FetchOutcome.reject e →
          (runModel true (.reject (.str "netfail"))).handlerCalls
            = if true then
                [⟨"GraphQL Network Error", ErrVal.str "GraphQL Network Error"⟩]
              else []) :=
  run_error_policy true (.reject (.str "netfail")) rfl

/-- A successful protocol match captures "http" or "https", never the
empty string, so the constructor's `if (!protocol)` guard cannot fire. -/
theorem matchHttpProtocol_ne_empty {u : String} {p : String}
    (h : matchHttpProtocol u = some p) : ¬ p = "" := by
  unfold matchHttpProtocol at h
  split at h
  · cases h
    decide
  · split at h
    · cases h
      decide
    · cases h

/-- Claim C9: for every url that does not begin with the http or https
scheme prefix, the Api constructor never returns an instance (it throws
either the no-fetch error or the TypeError from indexing the null regex
match); and for every input whatsoever the explicit
`Unexpected API URL` branch is unreachable. -/
theorem ctor_bad_url (hasFetch : Bool) (url : String) (w : Option String)
    (h1 : beginsWith url.data "http://".data = false)
    (h2 : beginsWith url.data "https://".data = false) :
    (∀ u ws, apiConstructor hasFetch url w ≠ CtorResult.ok u ws)
      ∧ (∀ hf u2 w2, apiConstructor hf u2 w2 ≠ CtorResult.unexpectedUrlError) := by
  constructor
  · intro u ws
    cases hasFetch with
    | false => simp [apiConstructor]
    | true => simp [apiConstructor, matchHttpProtocol, h1, h2]
  · intro hf u2 w2
    cases hf with
    | false => simp [apiConstructor]
    | true =>
      cases hm : matchHttpProtocol u2 with
      | none => simp [apiConstructor, hm]
      | some p =>
        have hp := matchHttpProtocol_ne_empty hm
        simp [apiConstructor, hm, hp]

/-- Claim C9 witness: the scheme-less url "ftp://x" never constructs,
and the explicit bad-url branch is unreachable. -/
theorem ctor_bad_url_witness :
    (∀ u ws, apiConstructor true "ftp://x" none ≠ CtorResult.ok u ws)
      ∧ (∀ hf u2 w2, apiConstructor hf u2 w2 ≠ CtorResult.unexpectedUrlError) :=
  ctor_bad_url true "ftp://x" none (by decide) (by decide)

/-- A list beginning with a prefix passes the beginsWith test. -/
theorem beginsWith_append (p s : List Char) : beginsWith (p ++ s) p = true := by
  induction p with
  | nil => simp [beginsWith]
  | cons c cs ih => simp [beginsWith, ih]

/-- Splitting on "//" leaves a double-slash-free list whole. -/
theorem splitSlashes_no_dslash :
    ∀ l : List Char, hasDoubleSlash l = false → splitSlashes l = [l]
  | [], _ => rfl
  | [c], _ => rfl
  | c1 :: c2 :: rest, h => by
    have hparts : ¬ (c1 = '/' ∧ c2 = '/') ∧ hasDoubleSlash (c2 :: rest) = false := by
      simp only [hasDoubleSlash, Bool.or_eq_false_iff, Bool.and_eq_false_iff,
        decide_eq_false_iff_not] at h
      exact ⟨fun hc => by rcases h.1 with h1 | h1 <;> exact h1 (by simp [hc]), h.2⟩
    have ih := splitSlashes_no_dslash (c2 :: rest) hparts.2
    simp [splitSlashes, hparts.1, ih]

/-- Unfolding of splitSlashes across the literal prefix "http://". -/
theorem splitSlashes_http (l : List Char) :
    splitSlashes ('h' :: 't' :: 't' :: 'p' :: ':' :: '/' :: '/' :: l)
      = ['h', 't', 't', 'p', ':'] :: splitSlashes l := by
  simp [splitSlashes]

/-- Unfolding of splitSlashes across the literal prefix "https://". -/
theorem splitSlashes_https (l : List Char) :
    splitSlashes ('h' :: 't' :: 't' :: 'p' :: 's' :: ':' :: '/' :: '/' :: l)
      = ['h', 't', 't', 'p', 's', ':'] :: splitSlashes l := by
  simp [splitSlashes]

/-- The protocol captured for a url built from the "http://" prefix. -/
theorem matchHttpProtocol_http (rest : String) :
    matchHttpProtocol ("http://" ++ rest) = some "http" := by
  unfold matchHttpProtocol
  rw [String.data_append]
  rw [show "http://".data = ['h', 't', 't', 'p', ':', '/', '/'] from rfl]
  rw [show "https://".data = ['h', 't', 't', 'p', 's', ':', '/', '/'] from rfl]
  simp [beginsWith]

/-- The protocol captured for a url built from the "https://" prefix. -/
theorem matchHttpProtocol_https (rest : String) :
    matchHttpProtocol ("https://" ++ rest) = some "https" := by
  unfold matchHttpProtocol
  rw [String.data_append]
  rw [show "https://".data = ['h', 't', 't', 'p', 's', ':', '/', '/'] from rfl]
  simp [beginsWith]

/-- Claim C8 counterexample: for the base URL "http://host/a//b" the
derived channel URL is "ws://host/a,b" - the "//" inside the remainder
is replaced by "," because the nested array from slice(1) stringifies
with comma separators inside the outer join - so the remainder is not
kept unchanged. -/
theorem ws_derivation_cex :
    ctorWsUrl (apiConstructor true "http://host/a//b" none) = some "ws://host/a,b"
      ∧ ("ws://host/a,b" : String) ≠ "ws://host/a//b" := by
  constructor
  · rfl
  · decide

/-- Claim C8 (amended): when the part of the base URL after the scheme
separator contains no further "//", the derived channel URL replaces
http with ws (and https with wss) and keeps the remainder unchanged;
when the remainder does contain "//", its "//"-separated parts are
joined with "," instead. -/
theorem ws_derivation (rest : String) (h : hasDoubleSlash rest.data = false) :
    ctorWsUrl (apiConstructor true ("http://" ++ rest) none) = some ("ws://" ++ rest)
      ∧ ctorWsUrl (apiConstructor true ("https://" ++ rest) none)
          = some ("wss://" ++ rest) := by
  constructor
  · unfold apiConstructor
    rw [matchHttpProtocol_http]
    simp only [Bool.true_eq_false, if_false, reduceCtorEq, reduceIte]
    unfold deriveWsUrl
    rw [String.data_append]
    rw [show "http://".data = ['h', 't', 't', 'p', ':', '/', '/'] from rfl]
    rw [show (['h', 't', 't', 'p', ':', '/', '/'] : List Char) ++ rest.data
          = 'h' :: 't' :: 't' :: 'p' :: ':' :: '/' :: '/' :: rest.data from rfl]
    rw [splitSlashes_http, splitSlashes_no_dslash rest.data h]
    rfl
  · unfold apiConstructor
    rw [matchHttpProtocol_https]
    simp only [Bool.true_eq_false, if_false, reduceCtorEq, reduceIte]
    unfold deriveWsUrl
    rw [String.data_append]
    rw [show "https://".data = ['h', 't', 't', 'p', 's', ':', '/', '/'] from rfl]
    rw [show (['h', 't', 't', 'p', 's', ':', '/', '/'] : List Char) ++ rest.data
          = 'h' :: 't' :: 't' :: 'p' :: 's' :: ':' :: '/' :: '/' :: rest.data from rfl]
    rw [splitSlashes_https, splitSlashes_no_dslash rest.data h]
    rfl

/-- Claim C8 witness: the spec's two example URLs, whose remainder
"host:123/api" contains no "//", derive exactly as the spec states. -/
theorem ws_derivation_witness :
    ctorWsUrl (apiConstructor true ("http://" ++ "host:123/api") none)
        = some ("ws://" ++ "host:123/api")
      ∧ ctorWsUrl (apiConstructor true ("https://" ++ "host:123/api") none)
          = some ("wss://" ++ "host:123/api") :=
  ws_derivation "host:123/api" (by decide)

/-- Registering a fresh channel extends the membership test of the
subscriptions map by that channel id. -/
theorem hasSub_append (subs : List (String × Bool)) (ch x : String) :
    hasSub (subs ++ [(ch, false)]) x = (hasSub subs x || decide (ch = x)) := by
  induction subs with
  | nil =>
    simp only [List.nil_append, hasSub, lookupSub, Bool.false_or]
    split
    · next hk => simp [hk]
    · next hk => simp [hk]
  | cons p rest ih =>
    obtain ⟨k, v⟩ := p
    simp only [List.cons_append, hasSub, lookupSub] at *
    split
    · simp
    · exact ih

/-- Invariant of a socket state while the handshake is pending: not
connected, nothing sent yet, and a channel id is registered exactly
when it is in `seen`. -/
def SockInv (sk : SocketState) (seen : List String) : Prop :=
  sk.connected = false ∧ sk.sent = []
    ∧ ∀ ch, hasSub sk.subscriptions ch = true ↔ ch ∈ seen

/-- Running subscribe calls against a pending socket keeps the
invariant, transmits nothing, and extends the deferred queue by exactly
the accepted start messages in call order. -/
theorem runSubs_building
    (calls : List (String × Json × String)) (sk : SocketState)
    (seen : List String) (hInv : SockInv sk seen) :
    ∃ sk2 seen2, runSubs (some sk) calls = some sk2 ∧ SockInv sk2 seen2
      ∧ sk2.connectedHandlers = sk.connectedHandlers ++ acceptedMsgs seen calls := by
  induction calls generalizing sk seen with
  | nil => exact ⟨sk, seen, rfl, hInv, by simp [acceptedMsgs]⟩
  | cons c rest ih =>
    obtain ⟨q, v, ch⟩ := c
    obtain ⟨conn, handlers, subs, sent⟩ := sk
    obtain ⟨hconn, hsent, hsubs⟩ := hInv
    simp only at hconn hsent hsubs
    subst hconn
    subst hsent
    by_cases hmem : ch ∈ seen
    · have hdup : hasSub subs ch = true := (hsubs ch).mpr hmem
      have hstep : subscribeStep (some ⟨false, handlers, subs, []⟩) q v ch
          = .error ("Subscription already exists for channel [" ++ ch ++ "]") := by
        simp [subscribeStep, hdup]
      simp only [runSubs, hstep]
      rw [show acceptedMsgs seen ((q, v, ch) :: rest) = acceptedMsgs seen rest by
        simp [acceptedMsgs, hmem]]
      exact ih ⟨false, handlers, subs, []⟩ seen ⟨rfl, rfl, hsubs⟩
    · have hdup : hasSub subs ch = false := by
        cases hc : hasSub subs ch
        · rfl
        · exact absurd ((hsubs ch).mp hc) hmem
      have hstep : subscribeStep (some ⟨false, handlers, subs, []⟩) q v ch
          = .ok (some ⟨false, handlers ++ [⟨ch, q, v⟩], subs ++ [(ch, false)], []⟩) := by
        simp [subscribeStep, hdup, setSub]
      simp only [runSubs, hstep]
      have hInvN : SockInv ⟨false, handlers ++ [⟨ch, q, v⟩], subs ++ [(ch, false)], []⟩
          (ch :: seen) := by
        refine ⟨rfl, rfl, ?_⟩
        intro x
        rw [show (⟨false, handlers ++ [⟨ch, q, v⟩], subs ++ [(ch, false)], []⟩
            : SocketState).subscriptions = subs ++ [(ch, false)] from rfl]
        rw [hasSub_append]
        simp only [Bool.or_eq_true, decide_eq_true_eq, List.mem_cons, hsubs]
        constructor
        · rintro (hx | hx)
          · exact Or.inr hx
          · exact Or.inl hx.symm
        · rintro (hx | hx)
          · exact Or.inr hx.symm
          · exact Or.inl hx
      obtain ⟨sk2, seen2, hrun, hInv2, hh⟩ :=
        ih ⟨false, handlers ++ [⟨ch, q, v⟩], subs ++ [(ch, false)], []⟩ (ch :: seen) hInvN
      refine ⟨sk2, seen2, hrun, hInv2, ?_⟩
      rw [hh]
      simp [acceptedMsgs, hmem, List.append_assoc]

/-- Claim C1: for every sequence of subscribe calls made while the
handshake is still pending, nothing at all (in particular no
channel-start frame) is transmitted on the socket, and on receipt of
the connection_ack every queued start-message is sent in exactly the
order the channels were registered. -/
theorem deferred_flush (calls : List (String × Json × String)) (ackId : String)
    (sk : SocketState) (h : runSubs none calls = some sk) :
    sk.sent = [] ∧ sk.connected = false
      ∧ (onMessage sk (.connectionAck ackId)).socket.sent
          = (acceptedMsgs [] calls).map Wire.start := by
  cases calls with
  | nil => simp [runSubs] at h
  | cons c rest =>
    obtain ⟨q, v, ch⟩ := c
    have hstep : subscribeStep none q v ch
        = .ok (some ⟨false, [⟨ch, q, v⟩], [(ch, false)], []⟩) := rfl
    simp only [runSubs, hstep] at h
    have hInv : SockInv ⟨false, [⟨ch, q, v⟩], [(ch, false)], []⟩ [ch] := by
      refine ⟨rfl, rfl, ?_⟩
      intro x
      simp only [hasSub, lookupSub]
      by_cases hk : ch = x
      · subst hk
        simp
      · simp only [if_neg hk, Option.isSome_none, Bool.false_eq_true, false_iff,
          List.mem_singleton]
        exact fun hx => hk hx.symm
    obtain ⟨sk2, seen2, hrun, hInv2, hh⟩ :=
      runSubs_building rest ⟨false, [⟨ch, q, v⟩], [(ch, false)], []⟩ [ch] hInv
    rw [hrun] at h
    injection h with h2
    subst h2
    obtain ⟨hc2, hs2, _⟩ := hInv2
    refine ⟨hs2, hc2, ?_⟩
    simp only [onMessage]
    rw [hs2, hh]
    simp [acceptedMsgs]

/-- Claim C1 witness: two subscribe calls on channels a and b while
connecting transmit nothing, and the ack flushes both start messages in
registration order. -/
theorem deferred_flush_witness :
    (⟨false, [⟨"a", "q1", Json.null⟩, ⟨"b", "q2", Json.null⟩],
        [("a", false), ("b", false)], []⟩ : SocketState).sent = []
      ∧ (⟨false, [⟨"a", "q1", Json.null⟩, ⟨"b", "q2", Json.null⟩],
          [("a", false), ("b", false)], []⟩ : SocketState).connected = false
      ∧ (onMessage (⟨false, [⟨"a", "q1", Json.null⟩, ⟨"b", "q2", Json.null⟩],
            [("a", false), ("b", false)], []⟩ : SocketState)
            (.connectionAck "x")).socket.sent
          = (acceptedMsgs [] [("q1", Json.null, "a"), ("q2", Json.null, "b")]).map
              Wire.start :=
  deferred_flush [("q1", Json.null, "a"), ("q2", Json.null, "b")] "x"
    ⟨false, [⟨"a", "q1", Json.null⟩, ⟨"b", "q2", Json.null⟩],
      [("a", false), ("b", false)], []⟩ rfl

/-- Claim C10: for every proposed input, type name, and input-type map:
when the type name is not a key of the map, trimInput returns the
proposed input itself; otherwise the result is an object whose keys all
come from the named input type's field names, no key is kept whose
property is undefined on the proposed input, and every kept entry stems
from a field of the input type that is defined on the proposed input
and, when the field's own type is not an input type, carries exactly
the proposed input's property value. -/
theorem trimInput_spec (m : List (String × InputTypeInfo)) (p : JVal) (tn : String) :
    (lookupTypeInfo m tn = none → trimInput m p tn = p)
      ∧ (∀ it, lookupTypeInfo m tn = some it →
          ∃ l, trimInput m p tn = JVal.obj l
            ∧ (∀ e ∈ l, e.1 ∈ it.fields.map InputFieldInfo.name)
            ∧ (∀ k, (getProp p k).isUndefinedVal = true → ∀ e ∈ l, e.1 ≠ k)
            ∧ (∀ e ∈ l, ∃ fi ∈ it.fields, fi.name = e.1
                ∧ (getProp p e.1).isUndefinedVal = false
                ∧ (lookupTypeInfo m fi.typeName = none → e.2 = getProp p e.1))) := by
  constructor
  · intro h
    unfold trimInput
    rw [h]
  · intro it hit
    unfold trimInput
    rw [hit]
    refine ⟨_, rfl, ?_, ?_, ?_⟩
    · intro e he
      rw [List.mem_filterMap] at he
      obtain ⟨fi, hfi, hg⟩ := he
      split at hg
      · cases hg
      · cases hg
        exact List.mem_map_of_mem InputFieldInfo.name hfi
    · intro k hk e he he1
      rw [List.mem_filterMap] at he
      obtain ⟨fi, hfi, hg⟩ := he
      split at hg
      · cases hg
      · next hf =>
        cases hg
        simp only at he1
        rw [he1] at hf
        exact hf hk
    · intro e he
      rw [List.mem_filterMap] at he
      obtain ⟨fi, hfi, hg⟩ := he
      split at hg
      · cases hg
      · next hf =>
        cases hg
        refine ⟨fi, hfi, rfl, ?_, ?_⟩
        · simp only
          exact Bool.not_eq_true _ ▸ Bool.of_not_eq_true hf
        · intro hnone
          simp only [hnone, Option.isSome_none, Bool.false_eq_true, if_false]

/-- Claim C10 witness: with an empty type map, trimInput returns the
proposed input unchanged. -/
theorem trimInput_spec_witness :
    trimInput [] (JVal.scalar 0) "T" = JVal.scalar 0 :=
  (trimInput_spec [] (JVal.scalar 0) "T").1 rfl
